import Mathlib

/-!
Verification development for the seaport discrete-event simulation model
(src/port_model.py).  The embedding is shallow: Python floats become
rationals, Python lists become Lean lists, the configuration dictionary and
the metric recorder become structures, and the SimPy event engine becomes an
explicit, fuel-bounded event loop over a state record.  Line numbers in doc
comments refer to src/port_model.py.
-/

namespace PortSim

/-- Cargo classes handled by the port (the strings grain, oil and general in
the source). -/
inductive CargoType
  | grain
  | oil
  | general
deriving DecidableEq

/-- Configuration dictionary handed to run_simulation (assembled in main,
lines 630-649).  Resource counts are integers (Streamlit number inputs);
tonnages, rates and probabilities are rationals standing for Python floats. -/
structure Config where
  oil_berths : Int
  dry_berths : Int
  cranes : Int
  grain_speed : ℚ
  oil_speed : ℚ
  general_speed : ℚ
  grain_storage_capacity : ℚ
  general_storage_capacity : ℚ
  oil_storage_capacity : ℚ
  trains_per_day : ℚ
  train_capacity : ℚ
  railway_capacity : Int
  ships_per_year : ℚ
  dist_grain : ℚ
  dist_oil : ℚ
  dist_general : ℚ
deriving DecidableEq

/-- PortMetrics (lines 34-63): the append-only metric recorder.  Sample
dictionaries with keys time and queue (or usage) become pairs. -/
structure PortMetrics where
  ships_processed : ℕ
  ships_in_queue : List (ℚ × ℕ)
  berth_usage : List (ℚ × ℕ)
  crane_usage : List (ℚ × ℕ)
  storage_usage : List (ℚ × ℚ)
  ship_waiting_times : List ℚ
  ship_processing_times : List ℚ
  cargo_processed : List ℚ
  bottlenecks : List String
deriving DecidableEq

/-- PortMetrics.__init__ (lines 36-45): counter at zero, all logs empty. -/
def PortMetrics.init : PortMetrics := ⟨0, [], [], [], [], [], [], [], []⟩

/-- record_ship_arrival (lines 48-49). -/
def PortMetrics.record_ship_arrival (m : PortMetrics) (time : ℚ)
    (queue_length : ℕ) : PortMetrics :=
  { m with ships_in_queue := m.ships_in_queue ++ [(time, queue_length)] }

/-- record_ship_processing (lines 52-56): bump the counter and append one
entry to each of the three per-ship lists. -/
def PortMetrics.record_ship_processing (m : PortMetrics)
    (waiting_time processing_time cargo_amount : ℚ) : PortMetrics :=
  { m with
    ships_processed := m.ships_processed + 1
    ship_waiting_times := m.ship_waiting_times ++ [waiting_time]
    ship_processing_times := m.ship_processing_times ++ [processing_time]
    cargo_processed := m.cargo_processed ++ [cargo_amount] }

/-- record_resource_usage (lines 59-63). -/
def PortMetrics.record_resource_usage (m : PortMetrics) (time : ℚ)
    (berths_busy cranes_busy : ℕ) (storage_used storage_capacity : ℚ) :
    PortMetrics :=
  let storage_pct : ℚ :=
    if 0 < storage_capacity then storage_used / storage_capacity * 100 else 0
  { m with
    berth_usage := m.berth_usage ++ [(time, berths_busy)]
    crane_usage := m.crane_usage ++ [(time, cranes_busy)]
    storage_usage := m.storage_usage ++ [(time, storage_pct)] }

/-- np.mean of a list together with the emptiness guard the analyzer wraps
around every mean (lines 267-284): an empty sample set yields 0. -/
def listMean (l : List ℚ) : ℚ := if l = [] then 0 else l.sum / l.length

/-- Python min over the values of the capacities dictionary (line 309).
Dictionaries iterate in insertion order; min of an empty dict never occurs
here (the dict has four fixed keys), the empty case is a dummy 0. -/
def pyDictMinVal (l : List (String × ℚ)) : ℚ :=
  match l with
  | [] => 0
  | p :: ps => ps.foldl (fun a q => min a q.2) p.2

/-- Python min(capacities, key=capacities.get) (line 310): scans the keys in
insertion order and replaces the current best only on a strictly smaller
value, so the first key attaining the minimum wins a tie. -/
def pyDictArgmin (l : List (String × ℚ)) : String × ℚ :=
  match l with
  | [] => ("", 0)
  | p :: ps => ps.foldl (fun a q => if q.2 < a.2 then q else a) p

/-- Berth theoretical annual capacity (lines 287-290): extrapolated ship slots
times average cargo per ship, with the fallbacks of the source (24 h average
dwell, 5000 t per ship) when no ship completed. -/
def berth_capacity_annual (m : PortMetrics) (cfg : Config) : ℚ :=
  let total_cargo := m.cargo_processed.sum
  let avg_processing_time := listMean m.ship_processing_times
  let total_berths : ℚ := ((cfg.oil_berths + cfg.dry_berths : Int) : ℚ)
  let avg_ship_time := if 0 < avg_processing_time then avg_processing_time else 24
  let ships_per_year_capacity := total_berths * 8760 / avg_ship_time
  let avg_cargo_per_ship :=
    if 0 < m.ships_processed then total_cargo / (m.ships_processed : ℚ) else 5000
  ships_per_year_capacity * avg_cargo_per_ship

/-- Crane theoretical annual capacity (line 292), with the 0.7 derating
factor written as 7/10. -/
def crane_capacity_annual (cfg : Config) : ℚ :=
  (cfg.cranes : ℚ) * cfg.general_speed * 8760 * (7 / 10)

/-- Storage theoretical annual capacity (lines 294-297): total capacity times
24 turnovers per year. -/
def storage_capacity_annual (cfg : Config) : ℚ :=
  (cfg.grain_storage_capacity + cfg.general_storage_capacity +
    cfg.oil_storage_capacity) * 24

/-- Railway theoretical annual capacity (line 299). -/
def railway_capacity_annual (cfg : Config) : ℚ :=
  cfg.trains_per_day * cfg.train_capacity * 365

/-- Status classification (lines 330-338): strictly above 80 percent is
at-capacity, strictly above 60 percent is moderate, anything else has ample
reserve.  Returns (system_status, status_color). -/
def system_status_of (u : ℚ) : String × String :=
  if 80 < u then ("На пределе", "red")
  else if 60 < u then ("Умеренная нагрузка", "orange")
  else ("Есть значительный резерв", "green")

/-- CapacityReport: the dictionary returned by calculate_capacity_metrics
(lines 340-358). -/
structure CapacityReport where
  annual_cargo_tons : ℚ
  ships_processed : ℕ
  avg_wait_time_hours : ℚ
  avg_processing_time_hours : ℚ
  berth_utilization_pct : ℚ
  crane_utilization_pct : ℚ
  storage_utilization_pct : ℚ
  avg_queue_length : ℚ
  max_queue_length : ℕ
  theoretical_max_capacity_tons : ℚ
  capacity_utilization_pct : ℚ
  reserve_capacity_tons : ℚ
  bottleneck : String
  capacities : List (String × ℚ)
  critical_issues : List String
  system_status : String
  status_color : String
deriving DecidableEq

/-- calculate_capacity_metrics (lines 261-358).  The three critical-issue
messages keep only the fixed message prefixes: the source interpolates the
offending numbers into the strings, which the claims never inspect.  Python
max over the queue samples is a fold of max over naturals starting at the
guard value 0, which agrees with max on every nonempty sample list. -/
def calculate_capacity_metrics (metrics : PortMetrics) (cfg : Config)
    (simulation_hours : ℚ) : CapacityReport :=
  let total_cargo := metrics.cargo_processed.sum
  let annual_cargo := total_cargo * (8760 / simulation_hours)
  let avg_wait_time := listMean metrics.ship_waiting_times
  let avg_processing_time := listMean metrics.ship_processing_times
  let avg_berth_usage := listMean (metrics.berth_usage.map (fun x => (x.2 : ℚ)))
  let total_berths : Int := cfg.oil_berths + cfg.dry_berths
  let berth_utilization :=
    if 0 < total_berths then avg_berth_usage / (total_berths : ℚ) * 100 else 0
  let avg_crane_usage := listMean (metrics.crane_usage.map (fun x => (x.2 : ℚ)))
  let crane_utilization :=
    if 0 < cfg.cranes then avg_crane_usage / (cfg.cranes : ℚ) * 100 else 0
  let avg_storage_usage := listMean (metrics.storage_usage.map (fun x => x.2))
  let avg_queue := listMean (metrics.ships_in_queue.map (fun x => (x.2 : ℚ)))
  let max_queue := (metrics.ships_in_queue.map (fun x => x.2)).foldl max 0
  let capacities : List (String × ℚ) :=
    [("Причалы", berth_capacity_annual metrics cfg),
     ("Краны", crane_capacity_annual cfg),
     ("Склады", storage_capacity_annual cfg),
     ("ЖД", railway_capacity_annual cfg)]
  let theoretical_max_capacity := pyDictMinVal capacities
  let bottleneck := (pyDictArgmin capacities).1
  let capacity_utilization :=
    if 0 < theoretical_max_capacity
    then annual_cargo / theoretical_max_capacity * 100 else 0
  let reserve_capacity := max 0 (theoretical_max_capacity - annual_cargo)
  let critical_issues :=
    (if 5 < max_queue then ["Критическая очередь судов"] else []) ++
    (if 72 < avg_wait_time then ["Критический простой судов"] else []) ++
    (if 95 < avg_storage_usage then ["Критическое заполнение складов"] else [])
  let status := system_status_of capacity_utilization
  { annual_cargo_tons := annual_cargo
    ships_processed := metrics.ships_processed
    avg_wait_time_hours := avg_wait_time
    avg_processing_time_hours := avg_processing_time
    berth_utilization_pct := berth_utilization
    crane_utilization_pct := crane_utilization
    storage_utilization_pct := avg_storage_usage
    avg_queue_length := avg_queue
    max_queue_length := max_queue
    theoretical_max_capacity_tons := theoretical_max_capacity
    capacity_utilization_pct := capacity_utilization
    reserve_capacity_tons := reserve_capacity
    bottleneck := bottleneck
    capacities := capacities
    critical_issues := critical_issues
    system_status := status.1
    status_color := status.2 }

/-- Folding min over a list of keyed values never rises above the seed. -/
theorem foldl_min_le_seed (t : List (String × ℚ)) :
    ∀ a : ℚ, t.foldl (fun a r => min a r.2) a ≤ a := by
  induction t with
  | nil => intro a; simp
  | cons q t ih =>
    intro a
    simpa using le_trans (ih (min a q.2)) (min_le_left _ _)

/-- The strict-comparison fold of Python min carries the minimum value of the
scanned keyed list. -/
theorem pyArgmin_val (t : List (String × ℚ)) :
    ∀ p : String × ℚ,
      (t.foldl (fun a q => if q.2 < a.2 then q else a) p).2 =
        t.foldl (fun a r => min a r.2) p.2 := by
  induction t with
  | nil => intro p; rfl
  | cons q t ih =>
    intro p
    simp only [List.foldl_cons]
    rw [ih]
    rcases lt_or_le q.2 p.2 with h | h
    · simp [if_pos h, min_eq_right (le_of_lt h)]
    · simp [if_neg (not_lt.mpr h), min_eq_left h]

/-- Python min with a key function returns the first element of the scan
order attaining the minimum value: the fold replaces the current best only
on a strictly smaller value. -/
theorem pyArgmin_first (t : List (String × ℚ)) :
    ∀ p : String × ℚ,
      List.find? (fun q => decide (q.2 = t.foldl (fun a r => min a r.2) p.2))
          (p :: t) =
        some (t.foldl (fun a q => if q.2 < a.2 then q else a) p) := by
  induction t with
  | nil =>
    intro p
    simp [List.find?]
  | cons q t ih =>
    intro p
    have hM : (q :: t).foldl (fun a r => min a r.2) p.2 =
        t.foldl (fun a r => min a r.2) (min p.2 q.2) := by
      simp [List.foldl_cons]
    have hMle : t.foldl (fun a r => min a r.2) (min p.2 q.2) ≤ min p.2 q.2 :=
      foldl_min_le_seed t _
    rcases lt_or_le q.2 p.2 with h | h
    · -- the new element strictly improves on the seed
      have hmin : min p.2 q.2 = q.2 := min_eq_right (le_of_lt h)
      have hpne : ¬ p.2 = t.foldl (fun a r => min a r.2) (min p.2 q.2) := by
        intro he
        have : p.2 ≤ q.2 := le_trans (le_of_eq he) (le_trans hMle (min_le_right _ _))
        exact absurd this (not_le.mpr h)
      have step : (q :: t).foldl (fun a r => if r.2 < a.2 then r else a) p =
          t.foldl (fun a r => if r.2 < a.2 then r else a) q := by
        simp [List.foldl_cons, if_pos h]
      rw [hM, step]
      rw [List.find?_cons_of_neg _ (by simpa using hpne)]
      have := ih q
      rw [hmin]
      simpa [hmin] using this
    · -- the seed survives the comparison
      have hmin : min p.2 q.2 = p.2 := min_eq_left h
      rw [hmin] at hMle
      have step : (q :: t).foldl (fun a r => if r.2 < a.2 then r else a) p =
          t.foldl (fun a r => if r.2 < a.2 then r else a) p := by
        simp [List.foldl_cons, if_neg (not_lt.mpr h)]
      rw [hM, hmin, step]
      by_cases hp : p.2 = t.foldl (fun a r => min a r.2) p.2
      · -- the seed itself attains the minimum and is found first
        have hfound := ih p
        rw [List.find?_cons_of_pos _ (by simpa using hp)] at hfound
        rw [List.find?_cons_of_pos _ (by simpa using hp)]
        exact hfound
      · -- the minimum lies strictly inside the tail
        have hqne : ¬ q.2 = t.foldl (fun a r => min a r.2) p.2 := by
          intro he
          exact hp (le_antisymm (he ▸ h) hMle)
        have hfound := ih p
        rw [List.find?_cons_of_neg _ (by simpa using hp)] at hfound
        rw [List.find?_cons_of_neg _ (by simpa using hp),
          List.find?_cons_of_neg _ (by simpa using hqne)]
        exact hfound

/-- Python min over a nonempty keyed dictionary, paired with min over the
keys under the value function, finds the first key attaining the minimum. -/
theorem pyDict_min_argmin (p : String × ℚ) (t : List (String × ℚ)) :
    List.find? (fun q => decide (q.2 = pyDictMinVal (p :: t))) (p :: t)
      = some ((pyDictArgmin (p :: t)).1, pyDictMinVal (p :: t)) := by
  have h2 := pyArgmin_val t p
  have h3 : ((pyDictArgmin (p :: t)).1, pyDictMinVal (p :: t)) =
      pyDictArgmin (p :: t) := by
    have hv : pyDictMinVal (p :: t) = (pyDictArgmin (p :: t)).2 := by
      simpa [pyDictArgmin, pyDictMinVal] using h2.symm
    rw [hv]
  rw [h3]
  simpa [pyDictMinVal, pyDictArgmin] using pyArgmin_first t p

/-- Claim C2: for every MetricsLog and Configuration, the CapacityReport has
theoretical_max_capacity_tons equal to the minimum of the four per-element
annual capacities (berths, cranes, storage, rail), and its bottleneck field
names the element attaining that minimum, ties resolved by the fixed
evaluation order berths (Причалы), cranes (Краны), storage (Склады),
rail (ЖД): the bottleneck is the first entry of the capacities list, taken
in that order, whose capacity equals the reported minimum. -/
theorem C2_bottleneck_correct (m : PortMetrics) (cfg : Config) (hours : ℚ) :
    let r := calculate_capacity_metrics m cfg hours
    r.capacities =
        [("Причалы", berth_capacity_annual m cfg),
         ("Краны", crane_capacity_annual cfg),
         ("Склады", storage_capacity_annual cfg),
         ("ЖД", railway_capacity_annual cfg)]
      ∧ r.theoretical_max_capacity_tons =
          min (min (min (berth_capacity_annual m cfg) (crane_capacity_annual cfg))
            (storage_capacity_annual cfg)) (railway_capacity_annual cfg)
      ∧ List.find? (fun q => decide (q.2 = r.theoretical_max_capacity_tons))
          r.capacities = some (r.bottleneck, r.theoretical_max_capacity_tons) :=
  ⟨rfl, rfl, pyDict_min_argmin _ _⟩

/-- Boundary behaviour of the status classifier (lines 330-338): the branch
conditions are strict comparisons, so a utilization of exactly 60 falls into
the final else branch. -/
theorem system_status_bounds (u : ℚ) :
    ((system_status_of u).1 = "На пределе" ↔ 80 < u)
  ∧ ((system_status_of u).1 = "Умеренная нагрузка" ↔ 60 < u ∧ u ≤ 80)
  ∧ ((system_status_of u).1 = "Есть значительный резерв" ↔ u ≤ 60) := by
  unfold system_status_of
  split_ifs with h1 h2
  · exact ⟨iff_of_true rfl h1,
      iff_of_false (by decide) (fun h => absurd h1 (not_lt.mpr h.2)),
      iff_of_false (by decide)
        (fun h => absurd h1 (not_lt.mpr (h.trans (by norm_num))))⟩
  · exact ⟨iff_of_false (by decide) h1,
      iff_of_true rfl ⟨h2, not_lt.mp h1⟩,
      iff_of_false (by decide) (fun h => absurd h2 (not_lt.mpr h))⟩
  · exact ⟨iff_of_false (by decide) h1,
      iff_of_false (by decide) (fun h => absurd h.1 h2),
      iff_of_true rfl (not_lt.mp h2)⟩

/-- Metrics log exhibiting a run whose capacity utilization is exactly 60
percent: one completed ship of 219000 tons over a full 8760-hour horizon. -/
def metricsEx9 : PortMetrics :=
  { PortMetrics.init with
    ships_processed := 1
    ship_waiting_times := [1]
    ship_processing_times := [1]
    cargo_processed := [219000] }

/-- Configuration whose binding constraint is rail: one train of 1000 tons a
day gives a theoretical maximum of 365000 tons a year; every other element is
larger. -/
def configEx9 : Config :=
  ⟨1, 1, 1, 300, 1000, 100, 10000, 10000, 10000, 1, 1000, 2, 714,
    32 / 100, 35 / 100, 33 / 100⟩

/-- Claim C9 counterexample: a report whose capacity utilization is exactly
60 percent is classified as ample reserve (Есть значительный резерв), not as
moderate load (Умеренная нагрузка), because the source compares with a strict
60 < u.  The claim asserts that exactly 60 yields moderate-load status. -/
theorem C9_counterexample :
    (calculate_capacity_metrics metricsEx9 configEx9 8760).capacity_utilization_pct
        = 60
      ∧ (calculate_capacity_metrics metricsEx9 configEx9 8760).system_status
        = "Есть значительный резерв"
      ∧ "Есть значительный резерв" ≠ "Умеренная нагрузка" := by
  refine ⟨?_, ?_, by decide⟩
  · norm_num [calculate_capacity_metrics, pyDictMinVal, berth_capacity_annual,
      crane_capacity_annual, storage_capacity_annual, railway_capacity_annual,
      listMean, metricsEx9, configEx9, PortMetrics.init, min_def]
  · norm_num [calculate_capacity_metrics, pyDictMinVal, pyDictArgmin,
      berth_capacity_annual, crane_capacity_annual, storage_capacity_annual,
      railway_capacity_annual, listMean, metricsEx9, configEx9,
      PortMetrics.init, min_def, system_status_of]

/-- Claim C9, amended: the system status is classified from capacity
utilization u as: u ≤ 60 yields ample-reserve status, 60 < u ≤ 80 yields
moderate-load status, and u > 80 yields at-capacity status (so utilization
exactly 60 is classified as ample reserve, the boundaries being strict
comparisons). -/
theorem C9_status_classification (m : PortMetrics) (cfg : Config) (hours : ℚ) :
    let r := calculate_capacity_metrics m cfg hours
    (r.system_status = "На пределе" ↔ 80 < r.capacity_utilization_pct)
      ∧ (r.system_status = "Умеренная нагрузка" ↔
          60 < r.capacity_utilization_pct ∧ r.capacity_utilization_pct ≤ 80)
      ∧ (r.system_status = "Есть значительный резерв" ↔
          r.capacity_utilization_pct ≤ 60) :=
  system_status_bounds
    (calculate_capacity_metrics m cfg hours).capacity_utilization_pct

/-- Withdrawal step of railway_unload_process (lines 187-210) acting on the
three storage levels.  A single pool holding a full train load is drained by
exactly train_capacity, checked in priority order grain, general, oil
(the if/elif chain of lines 190-195); otherwise the available stock is taken
across the pools in the same priority order until the train is full (lines
197-210).  The Python short-circuit conjunctions amount > 0 and level > 0
become nested conditionals.  Returns the new (grain, general, oil) levels. -/
def railWithdraw (g gen o cap : ℚ) : ℚ × ℚ × ℚ :=
  if cap ≤ g then (g - cap, gen, o)
  else if cap ≤ gen then (g, gen - cap, o)
  else if cap ≤ o then (g, gen, o - cap)
  else
    let amount0 := min cap (g + gen + o)
    if 0 < amount0 then
      let take1 := if 0 < g then min amount0 g else 0
      let amount1 := amount0 - take1
      let take2 := if 0 < amount1 then if 0 < gen then min amount1 gen else 0 else 0
      let amount2 := amount1 - take2
      let take3 := if 0 < amount2 then if 0 < o then min amount2 o else 0 else 0
      (g - take1, gen - take2, o - take3)
    else (g, gen, o)

/-- Total tonnage one rail dispatch firing removes from storage. -/
def railWithdrawn (g gen o cap : ℚ) : ℚ :=
  g + gen + o - ((railWithdraw g gen o cap).1 + (railWithdraw g gen o cap).2.1
    + (railWithdraw g gen o cap).2.2)

/-- Helper naming the train allotment computed in the fallback branch of the
rail dispatcher (line 198). -/
def railA0 (g gen o cap : ℚ) : ℚ := min cap (g + gen + o)

/-- Helper naming the grain take of the fallback branch (lines 200-203). -/
def railTake1 (g gen o cap : ℚ) : ℚ :=
  if 0 < g then min (railA0 g gen o cap) g else 0

/-- Helper naming the general-cargo take of the fallback branch
(lines 204-207). -/
def railTake2 (g gen o cap : ℚ) : ℚ :=
  if 0 < railA0 g gen o cap - railTake1 g gen o cap then
    if 0 < gen then min (railA0 g gen o cap - railTake1 g gen o cap) gen else 0
  else 0

/-- Helper naming the oil take of the fallback branch (lines 208-210). -/
def railTake3 (g gen o cap : ℚ) : ℚ :=
  if 0 < railA0 g gen o cap - railTake1 g gen o cap - railTake2 g gen o cap then
    if 0 < o then
      min (railA0 g gen o cap - railTake1 g gen o cap - railTake2 g gen o cap) o
    else 0
  else 0

/-- Unfolding the fallback branch of the dispatcher into the named takes. -/
theorem railWithdraw_else_eq (g gen o cap : ℚ)
    (h1 : ¬ cap ≤ g) (h2 : ¬ cap ≤ gen) (h3 : ¬ cap ≤ o) :
    railWithdraw g gen o cap =
      if 0 < railA0 g gen o cap then
        (g - railTake1 g gen o cap, gen - railTake2 g gen o cap,
         o - railTake3 g gen o cap)
      else (g, gen, o) := by
  simp only [railWithdraw, railA0, railTake1, railTake2, railTake3,
    if_neg h1, if_neg h2, if_neg h3]

/-- The guarded grain take equals an unguarded min once levels are known to
be nonnegative. -/
theorem railTake1_eq (g gen o cap : ℚ) (hg : 0 ≤ g) (hcap : 0 ≤ cap)
    (hsum : 0 ≤ g + gen + o) :
    railTake1 g gen o cap = min (railA0 g gen o cap) g := by
  unfold railTake1
  by_cases h : 0 < g
  · rw [if_pos h]
  · have hg0 : g = 0 := le_antisymm (not_lt.mp h) hg
    rw [if_neg h]
    have hz : g ≤ railA0 g gen o cap := by
      rw [hg0]
      exact le_min hcap (by linarith)
    rw [min_eq_right hz, hg0]

/-- The guarded general-cargo take equals an unguarded min. -/
theorem railTake2_eq (g gen o cap : ℚ) (hgen : 0 ≤ gen)
    (hrem : 0 ≤ railA0 g gen o cap - railTake1 g gen o cap) :
    railTake2 g gen o cap =
      min (railA0 g gen o cap - railTake1 g gen o cap) gen := by
  unfold railTake2
  by_cases h : 0 < railA0 g gen o cap - railTake1 g gen o cap
  · rw [if_pos h]
    by_cases h' : 0 < gen
    · rw [if_pos h']
    · have hgen0 : gen = 0 := le_antisymm (not_lt.mp h') hgen
      rw [if_neg h', min_eq_right (by linarith), hgen0]
  · have h0 : railA0 g gen o cap - railTake1 g gen o cap = 0 :=
      le_antisymm (not_lt.mp h) hrem
    rw [if_neg h, h0, min_eq_left hgen]

/-- The guarded oil take equals an unguarded min. -/
theorem railTake3_eq (g gen o cap : ℚ) (ho : 0 ≤ o)
    (hrem : 0 ≤ railA0 g gen o cap - railTake1 g gen o cap
      - railTake2 g gen o cap) :
    railTake3 g gen o cap =
      min (railA0 g gen o cap - railTake1 g gen o cap - railTake2 g gen o cap)
        o := by
  unfold railTake3
  by_cases h : 0 < railA0 g gen o cap - railTake1 g gen o cap
      - railTake2 g gen o cap
  · rw [if_pos h]
    by_cases h' : 0 < o
    · rw [if_pos h']
    · have ho0 : o = 0 := le_antisymm (not_lt.mp h') ho
      rw [if_neg h', min_eq_right (by linarith), ho0]
  · have h0 : railA0 g gen o cap - railTake1 g gen o cap
        - railTake2 g gen o cap = 0 := le_antisymm (not_lt.mp h) hrem
    rw [if_neg h, h0, min_eq_left ho]

/-- Arithmetic core of the fallback drain: greedy takes in order exhaust the
whole allotment as long as the allotment does not exceed the total stock. -/
theorem min_drain_sum (g gen o a0 : ℚ) (hg : 0 ≤ g) (hgen : 0 ≤ gen)
    (ho : 0 ≤ o) (ha0 : 0 ≤ a0) (hle : a0 ≤ g + gen + o) :
    min a0 g + min (a0 - min a0 g) gen +
      min (a0 - min a0 g - min (a0 - min a0 g) gen) o = a0 := by
  rcases min_cases a0 g with ⟨e1, l1⟩ | ⟨e1, l1⟩ <;> rw [e1]
  · rw [sub_self, min_eq_left hgen, sub_self, min_eq_left ho]
    ring
  · rcases min_cases (a0 - g) gen with ⟨e2, l2⟩ | ⟨e2, l2⟩ <;> rw [e2]
    · rw [sub_self, min_eq_left ho]
      ring
    · rcases min_cases (a0 - g - gen) o with ⟨e3, l3⟩ | ⟨e3, l3⟩ <;> rw [e3]
      · ring
      · linarith

/-- Drain analysis of the fallback branch of the rail dispatcher: when no
single pool can fill the train, the total withdrawn is the minimum of the
train capacity and the total stock, and a lower-priority pool is touched only
once every higher-priority pool has been emptied. -/
theorem railWithdraw_drain (g gen o cap : ℚ)
    (hg : 0 ≤ g) (hgen : 0 ≤ gen) (ho : 0 ≤ o) (hcap : 0 < cap)
    (h1 : ¬ cap ≤ g) (h2 : ¬ cap ≤ gen) (h3 : ¬ cap ≤ o) :
    railWithdrawn g gen o cap = min cap (g + gen + o)
  ∧ ((railWithdraw g gen o cap).2.1 < gen → (railWithdraw g gen o cap).1 = 0)
  ∧ ((railWithdraw g gen o cap).2.2 < o →
      (railWithdraw g gen o cap).1 = 0 ∧ (railWithdraw g gen o cap).2.1 = 0) := by
  have hsum : 0 ≤ g + gen + o := by linarith
  have ha0 : 0 ≤ railA0 g gen o cap := le_min hcap.le hsum
  have ha0le : railA0 g gen o cap ≤ g + gen + o := min_le_right _ _
  have ha0eq : railA0 g gen o cap = min cap (g + gen + o) := rfl
  have ht1 := railTake1_eq g gen o cap hg hcap.le hsum
  have ht1b : railTake1 g gen o cap ≤ railA0 g gen o cap := by
    rw [ht1]; exact min_le_left _ _
  have ht1g : railTake1 g gen o cap ≤ g := by rw [ht1]; exact min_le_right _ _
  have ht1n : 0 ≤ railTake1 g gen o cap := by rw [ht1]; exact le_min ha0 hg
  have hrem1 : 0 ≤ railA0 g gen o cap - railTake1 g gen o cap := by linarith
  have ht2 := railTake2_eq g gen o cap hgen hrem1
  have ht2b : railTake2 g gen o cap ≤ railA0 g gen o cap - railTake1 g gen o cap := by
    rw [ht2]; exact min_le_left _ _
  have ht2g : railTake2 g gen o cap ≤ gen := by rw [ht2]; exact min_le_right _ _
  have ht2n : 0 ≤ railTake2 g gen o cap := by rw [ht2]; exact le_min hrem1 hgen
  have hrem2 : 0 ≤ railA0 g gen o cap - railTake1 g gen o cap
      - railTake2 g gen o cap := by linarith
  have ht3 := railTake3_eq g gen o cap ho hrem2
  have heq := railWithdraw_else_eq g gen o cap h1 h2 h3
  by_cases hpos : 0 < railA0 g gen o cap
  · rw [if_pos hpos] at heq
    have hsum3 : railTake1 g gen o cap + railTake2 g gen o cap +
        railTake3 g gen o cap = railA0 g gen o cap := by
      rw [ht3, ht2, ht1]
      exact min_drain_sum g gen o (railA0 g gen o cap) hg hgen ho ha0 ha0le
    refine ⟨?_, ?_, ?_⟩
    · rw [railWithdrawn, heq]
      dsimp only
      linarith [hsum3, ha0eq.symm.le, ha0eq.le]
    · rw [heq]
      dsimp only
      intro hlt
      have hpos2 : 0 < railTake2 g gen o cap := by linarith
      have hpos1 : 0 < railA0 g gen o cap - railTake1 g gen o cap := by linarith
      rcases min_cases (railA0 g gen o cap) g with ⟨e1, l1⟩ | ⟨e1, l1⟩
      · rw [ht1, e1] at hpos1; linarith
      · rw [ht1, e1]; ring
    · rw [heq]
      dsimp only
      intro hlt
      have hpos3 : 0 < railTake3 g gen o cap := by linarith
      have ht3b : railTake3 g gen o cap ≤ railA0 g gen o cap
          - railTake1 g gen o cap - railTake2 g gen o cap := by
        rw [ht3]; exact min_le_left _ _
      have hlt2 : railTake2 g gen o cap < railA0 g gen o cap
          - railTake1 g gen o cap := by linarith
      have hpos1 : 0 < railA0 g gen o cap - railTake1 g gen o cap := by linarith
      constructor
      · rcases min_cases (railA0 g gen o cap) g with ⟨e1, l1⟩ | ⟨e1, l1⟩
        · rw [ht1, e1] at hpos1; linarith
        · rw [ht1, e1]; ring
      · rcases min_cases (railA0 g gen o cap - railTake1 g gen o cap) gen with
          ⟨e2, l2⟩ | ⟨e2, l2⟩
        · rw [ht2, e2] at hlt2; linarith
        · rw [ht2, e2]; ring
  · have h0 : railA0 g gen o cap = 0 := le_antisymm (not_lt.mp hpos) ha0
    rw [if_neg hpos] at heq
    refine ⟨?_, ?_, ?_⟩
    · rw [railWithdrawn, heq]
      dsimp only
      linarith [ha0eq.symm.le, ha0eq.le]
    · rw [heq]; dsimp only; intro hlt; linarith
    · rw [heq]; dsimp only; intro hlt; linarith

/-- Claim C6: on every firing of the rail dispatch process, if some storage
pool holds at least train_capacity tons then exactly train_capacity tons are
withdrawn from the highest-priority such pool (grain before general before
oil) and the other pools are untouched; otherwise stock is drained across
pools in priority order — general is touched only once grain is empty, oil
only once grain and general are empty — and the total withdrawn is the
minimum of train_capacity and the total stock; in every case the total
withdrawn lies between 0 and train_capacity. -/
theorem C6_rail_priority (g gen o cap : ℚ)
    (hg : 0 ≤ g) (hgen : 0 ≤ gen) (ho : 0 ≤ o) (hcap : 0 < cap) :
    (cap ≤ g → railWithdraw g gen o cap = (g - cap, gen, o))
  ∧ (g < cap → cap ≤ gen → railWithdraw g gen o cap = (g, gen - cap, o))
  ∧ (g < cap → gen < cap → cap ≤ o → railWithdraw g gen o cap = (g, gen, o - cap))
  ∧ (g < cap → gen < cap → o < cap →
      railWithdrawn g gen o cap = min cap (g + gen + o)
      ∧ ((railWithdraw g gen o cap).2.1 < gen → (railWithdraw g gen o cap).1 = 0)
      ∧ ((railWithdraw g gen o cap).2.2 < o →
          (railWithdraw g gen o cap).1 = 0 ∧ (railWithdraw g gen o cap).2.1 = 0))
  ∧ 0 ≤ railWithdrawn g gen o cap
  ∧ railWithdrawn g gen o cap ≤ cap := by
  have hb1 : cap ≤ g → railWithdraw g gen o cap = (g - cap, gen, o) := fun h => by
    simp only [railWithdraw, if_pos h]
  have hb2 : g < cap → cap ≤ gen → railWithdraw g gen o cap = (g, gen - cap, o) :=
    fun h h' => by simp only [railWithdraw, if_neg (not_le.mpr h), if_pos h']
  have hb3 : g < cap → gen < cap → cap ≤ o →
      railWithdraw g gen o cap = (g, gen, o - cap) := fun h h' h'' => by
    simp only [railWithdraw, if_neg (not_le.mpr h), if_neg (not_le.mpr h'),
      if_pos h'']
  refine ⟨hb1, hb2, hb3, ?_, ?_, ?_⟩
  · intro h h' h''
    exact railWithdraw_drain g gen o cap hg hgen ho hcap
      (not_le.mpr h) (not_le.mpr h') (not_le.mpr h'')
  · rcases le_or_lt cap g with h | h
    · rw [railWithdrawn, hb1 h]; dsimp only; linarith
    rcases le_or_lt cap gen with h' | h'
    · rw [railWithdrawn, hb2 h h']; dsimp only; linarith
    rcases le_or_lt cap o with h'' | h''
    · rw [railWithdrawn, hb3 h h' h'']; dsimp only; linarith
    · have := (railWithdraw_drain g gen o cap hg hgen ho hcap
        (not_le.mpr h) (not_le.mpr h') (not_le.mpr h'')).1
      rw [this]
      exact le_min hcap.le (by linarith)
  · rcases le_or_lt cap g with h | h
    · rw [railWithdrawn, hb1 h]; dsimp only; linarith
    rcases le_or_lt cap gen with h' | h'
    · rw [railWithdrawn, hb2 h h']; dsimp only; linarith
    rcases le_or_lt cap o with h'' | h''
    · rw [railWithdrawn, hb3 h h' h'']; dsimp only; linarith
    · have := (railWithdraw_drain g gen o cap hg hgen ho hcap
        (not_le.mpr h) (not_le.mpr h') (not_le.mpr h'')).1
      rw [this]
      exact min_le_left _ _

/-- Claim C6 witness: a firing at levels grain 100, general 50, oil 0 with a
train capacity of 2000 drains all 150 tons. -/
theorem C6_rail_priority_witness :
    ((0 : ℚ) ≤ 100 ∧ (0 : ℚ) ≤ 50 ∧ (0 : ℚ) ≤ 0 ∧ (0 : ℚ) < 2000)
  ∧ ((2000 : ℚ) ≤ 100 → railWithdraw 100 50 0 2000 = (100 - 2000, 50, 0))
  ∧ ((100 : ℚ) < 2000 → (2000 : ℚ) ≤ 50 →
      railWithdraw 100 50 0 2000 = (100, 50 - 2000, 0))
  ∧ ((100 : ℚ) < 2000 → (50 : ℚ) < 2000 → (2000 : ℚ) ≤ 0 →
      railWithdraw 100 50 0 2000 = (100, 50, 0 - 2000))
  ∧ ((100 : ℚ) < 2000 → (50 : ℚ) < 2000 → (0 : ℚ) < 2000 →
      railWithdrawn 100 50 0 2000 = min 2000 (100 + 50 + 0)
      ∧ ((railWithdraw 100 50 0 2000).2.1 < 50 → (railWithdraw 100 50 0 2000).1 = 0)
      ∧ ((railWithdraw 100 50 0 2000).2.2 < 0 →
          (railWithdraw 100 50 0 2000).1 = 0 ∧ (railWithdraw 100 50 0 2000).2.1 = 0))
  ∧ 0 ≤ railWithdrawn 100 50 0 2000
  ∧ railWithdrawn 100 50 0 2000 ≤ 2000 :=
  ⟨⟨by norm_num, by norm_num, le_refl 0, by norm_num⟩,
    C6_rail_priority 100 50 0 2000 (by norm_num) (by norm_num) (le_refl 0) (by norm_num)⟩

/-- Inter-train interval computed at the top of every loop iteration of
railway_unload_process (line 181). -/
def railInterval (cfg : Config) : ℚ := 24 / cfg.trains_per_day

/-- Simulated time of the n-th firing (withdrawal) of the rail dispatch
process, derived from the loop body of railway_unload_process (lines
179-212): each iteration sleeps one inter-train interval (line 182), acquires
a track slot (lines 184-185) — granted at the same instant because this loop
is the only user of the rail resource — withdraws cargo (immediate: every get
amount is at most the current level), sleeps the fixed 2-hour loading delay
(line 212), releases the slot and loops.  So the first firing happens one
interval after the start and each later firing follows the previous one by
the loading delay plus one interval. -/
def railFiringTime (interval : ℚ) : ℕ → ℚ
  | 0 => interval
  | n + 1 => railFiringTime interval n + 2 + interval

/-- Configuration with twelve trains a day, giving a two-hour inter-train
interval. -/
def configEx7 : Config :=
  ⟨5, 5, 7, 300, 1000, 20, 100000, 20000, 540000, 12, 2000, 2, 714,
    32 / 100, 35 / 100, 33 / 100⟩

/-- Claim C7 counterexample: with twelve trains a day the interval is 2
hours, but the first two firings are 4 hours apart — the 2-hour loading
delay inside the loop body stretches every cycle, so the firing period is
not 24 / trains_per_day. -/
theorem C7_counterexample :
    railFiringTime (railInterval configEx7) 1
        - railFiringTime (railInterval configEx7) 0
      ≠ railInterval configEx7 := by
  norm_num [railFiringTime, railInterval, configEx7]

/-- Claim C7, amended: the rail dispatch process fires periodically, but the
time between consecutive firings is 24 / trains_per_day plus the fixed
2-hour load/turnaround delay, because the delay elapses inside the loop
before the track slot is released and the next inter-train wait begins. -/
theorem C7_rail_period (cfg : Config) (n : ℕ) :
    railFiringTime (railInterval cfg) (n + 1)
        - railFiringTime (railInterval cfg) n = railInterval cfg + 2 := by
  simp [railFiringTime]
  ring

/-- Completion tail of ship_process (lines 165-174): record the completed
ship, then append a resource-utilization snapshot when the ship's
generator-assigned id is divisible by ten.  The ids are handed out by
ship_generator starting at 0 in arrival order (lines 218, 236-238). -/
def shipCompletionRecord (ship_id : ℕ) (now berth_wait processing cargo : ℚ)
    (berths_busy cranes_busy : ℕ) (storage_used storage_capacity : ℚ)
    (m : PortMetrics) : PortMetrics :=
  let m1 := m.record_ship_processing berth_wait processing cargo
  if ship_id % 10 = 0 then
    m1.record_resource_usage now berths_busy cranes_busy storage_used
      storage_capacity
  else m1

/-- Claim C8 counterexample: the very first generated ship has id 0, and
0 % 10 = 0, so its completion appends a utilization snapshot even though the
count of completed ships is then 1, not a multiple of 10.  The trigger is the
arrival index, not the completion count. -/
theorem C8_counterexample :
    (shipCompletionRecord 0 5 0 5 3000 1 1 3000 660000
        PortMetrics.init).berth_usage.length = 1
  ∧ (shipCompletionRecord 0 5 0 5 3000 1 1 3000 660000
        PortMetrics.init).ships_processed = 1
  ∧ (shipCompletionRecord 0 5 0 5 3000 1 1 3000 660000
        PortMetrics.init).ships_processed % 10 ≠ 0 := by
  refine ⟨rfl, rfl, by decide⟩

/-- Claim C8, amended: a resource-utilization snapshot is appended to the
MetricsLog exactly when the completing ship's generator-assigned id (its
0-based arrival index) is a multiple of 10 — in particular the first arrived
ship triggers one — and by no other recording operation: neither
record_ship_arrival nor record_ship_processing touches the usage logs. -/
theorem C8_snapshot_on_ship_id (ship_id : ℕ) (now bw pt ca : ℚ)
    (bb cb : ℕ) (su sc : ℚ) (m : PortMetrics) :
    ((shipCompletionRecord ship_id now bw pt ca bb cb su sc m).berth_usage.length
        = m.berth_usage.length + (if ship_id % 10 = 0 then 1 else 0)
      ∧ (shipCompletionRecord ship_id now bw pt ca bb cb su sc m).crane_usage.length
        = m.crane_usage.length + (if ship_id % 10 = 0 then 1 else 0)
      ∧ (shipCompletionRecord ship_id now bw pt ca bb cb su sc m).storage_usage.length
        = m.storage_usage.length + (if ship_id % 10 = 0 then 1 else 0))
  ∧ (∀ (mm : PortMetrics) (t : ℚ) (q : ℕ),
      (mm.record_ship_arrival t q).berth_usage = mm.berth_usage
      ∧ (mm.record_ship_arrival t q).crane_usage = mm.crane_usage
      ∧ (mm.record_ship_arrival t q).storage_usage = mm.storage_usage)
  ∧ (∀ (mm : PortMetrics) (w p c : ℚ),
      (mm.record_ship_processing w p c).berth_usage = mm.berth_usage
      ∧ (mm.record_ship_processing w p c).crane_usage = mm.crane_usage
      ∧ (mm.record_ship_processing w p c).storage_usage = mm.storage_usage) := by
  refine ⟨?_, fun mm t q => ⟨rfl, rfl, rfl⟩, fun mm w p c => ⟨rfl, rfl, rfl⟩⟩
  unfold shipCompletionRecord
  by_cases h : ship_id % 10 = 0
  · rw [if_pos h, if_pos h]
    refine ⟨?_, ?_, ?_⟩ <;>
      simp [PortMetrics.record_resource_usage, PortMetrics.record_ship_processing]
  · rw [if_neg h, if_neg h]
    refine ⟨?_, ?_, ?_⟩ <;>
      simp [PortMetrics.record_ship_processing]

/-- The three recording operations PortMetrics exposes (lines 47-63), as an
operation alphabet for reasoning about arbitrary recorder histories. -/
inductive MetricsOp
  | arrival (time : ℚ) (queue_length : ℕ)
  | processing (waiting processing cargo : ℚ)
  | usage (time : ℚ) (berths cranes : ℕ) (used capacity : ℚ)
deriving DecidableEq

/-- Dispatch of one recording operation. -/
def applyMetricsOp (m : PortMetrics) : MetricsOp → PortMetrics
  | MetricsOp.arrival t q => m.record_ship_arrival t q
  | MetricsOp.processing w p c => m.record_ship_processing w p c
  | MetricsOp.usage t b c u cap => m.record_resource_usage t b c u cap

/-- A recorder history: every sequence of recording operations applied to the
freshly initialized PortMetrics. -/
def runMetricsOps (ops : List MetricsOp) : PortMetrics :=
  ops.foldl applyMetricsOp PortMetrics.init

/-- The counter/length invariant is preserved by every single operation. -/
theorem applyMetricsOp_inv (m : PortMetrics) (op : MetricsOp)
    (h : m.ships_processed = m.ship_waiting_times.length
      ∧ m.ships_processed = m.ship_processing_times.length
      ∧ m.ships_processed = m.cargo_processed.length) :
    (applyMetricsOp m op).ships_processed
        = (applyMetricsOp m op).ship_waiting_times.length
      ∧ (applyMetricsOp m op).ships_processed
        = (applyMetricsOp m op).ship_processing_times.length
      ∧ (applyMetricsOp m op).ships_processed
        = (applyMetricsOp m op).cargo_processed.length := by
  obtain ⟨h1, h2, h3⟩ := h
  cases op with
  | arrival t q =>
    exact ⟨h1, h2, h3⟩
  | processing w p c =>
    refine ⟨?_, ?_, ?_⟩ <;>
      simp [applyMetricsOp, PortMetrics.record_ship_processing, ← h1, ← h2, ← h3]
  | usage t b c u cap =>
    refine ⟨?_, ?_, ?_⟩ <;>
      simp [applyMetricsOp, PortMetrics.record_resource_usage, ← h1, ← h2, ← h3]

/-- The invariant holds after folding any operation list from an invariant
state. -/
theorem foldl_metricsOps_inv (ops : List MetricsOp) :
    ∀ m : PortMetrics,
      (m.ships_processed = m.ship_waiting_times.length
        ∧ m.ships_processed = m.ship_processing_times.length
        ∧ m.ships_processed = m.cargo_processed.length) →
      ((ops.foldl applyMetricsOp m).ships_processed
          = (ops.foldl applyMetricsOp m).ship_waiting_times.length
        ∧ (ops.foldl applyMetricsOp m).ships_processed
          = (ops.foldl applyMetricsOp m).ship_processing_times.length
        ∧ (ops.foldl applyMetricsOp m).ships_processed
          = (ops.foldl applyMetricsOp m).cargo_processed.length) := by
  induction ops with
  | nil => intro m h; exact h
  | cons op rest ih =>
    intro m h
    exact ih (applyMetricsOp m op) (applyMetricsOp_inv m op h)

/-- Claim C10: after every sequence of PortMetrics operations,
ships_processed equals the length of each of the three per-ship lists;
record_ship_processing bumps the counter by exactly one and appends exactly
one entry to each list; and no operation removes or rewrites an existing
entry — every operation extends each per-ship list by a (possibly empty)
suffix. -/
theorem C10_metrics_invariant (ops : List MetricsOp) :
    ((runMetricsOps ops).ships_processed
        = (runMetricsOps ops).ship_waiting_times.length
      ∧ (runMetricsOps ops).ships_processed
        = (runMetricsOps ops).ship_processing_times.length
      ∧ (runMetricsOps ops).ships_processed
        = (runMetricsOps ops).cargo_processed.length)
  ∧ (∀ (m : PortMetrics) (w p c : ℚ),
      (m.record_ship_processing w p c).ships_processed = m.ships_processed + 1
      ∧ (m.record_ship_processing w p c).ship_waiting_times
        = m.ship_waiting_times ++ [w]
      ∧ (m.record_ship_processing w p c).ship_processing_times
        = m.ship_processing_times ++ [p]
      ∧ (m.record_ship_processing w p c).cargo_processed
        = m.cargo_processed ++ [c])
  ∧ (∀ (m : PortMetrics) (op : MetricsOp), ∃ t1 t2 t3,
      (applyMetricsOp m op).ship_waiting_times = m.ship_waiting_times ++ t1
      ∧ (applyMetricsOp m op).ship_processing_times
        = m.ship_processing_times ++ t2
      ∧ (applyMetricsOp m op).cargo_processed = m.cargo_processed ++ t3) := by
  refine ⟨foldl_metricsOps_inv ops PortMetrics.init ⟨rfl, rfl, rfl⟩,
    fun m w p c => ⟨rfl, rfl, rfl, rfl⟩, fun m op => ?_⟩
  cases op with
  | arrival t q => exact ⟨[], [], [], by simp [applyMetricsOp, PortMetrics.record_ship_arrival]⟩
  | processing w p c => exact ⟨[w], [p], [c], rfl, rfl, rfl⟩
  | usage t b c u cap =>
    exact ⟨[], [], [], by simp [applyMetricsOp, PortMetrics.record_resource_usage]⟩

/-- Suspension-point events of one execution of ship_process
(lines 121-163), in program order. -/
inductive ShipEvent
  | acquireBerth
  | acquireCrane
  | storageWaitTick
  | unload
  | storePut
  | releaseCrane
  | releaseBerth
deriving DecidableEq

/-- Event trace of ship_process for one ship (lines 121-163), parametrized by
the number k of 1-hour storage-headroom polling iterations the while loop
performs (lines 142-143 and 156-157).  Oil cargo skips the crane (lines
152-163); dry cargo requests a crane right after mooring (line 136), and the
storage wait, unloading and storage put all happen inside the crane
with-block (lines 139-151), which closes before the berth with-block. -/
def shipTrace (ct : CargoType) (k : ℕ) : List ShipEvent :=
  if ct = CargoType.oil then
    [ShipEvent.acquireBerth] ++ List.replicate k ShipEvent.storageWaitTick
      ++ [ShipEvent.unload, ShipEvent.storePut, ShipEvent.releaseBerth]
  else
    [ShipEvent.acquireBerth, ShipEvent.acquireCrane]
      ++ List.replicate k ShipEvent.storageWaitTick
      ++ [ShipEvent.unload, ShipEvent.storePut, ShipEvent.releaseCrane,
          ShipEvent.releaseBerth]

/-- Resource-hold bookkeeping: (berth held, crane held) after an event. -/
def holdStep : Bool × Bool → ShipEvent → Bool × Bool
  | (_, c), ShipEvent.acquireBerth => (true, c)
  | (_, c), ShipEvent.releaseBerth => (false, c)
  | (b, _), ShipEvent.acquireCrane => (b, true)
  | (b, _), ShipEvent.releaseCrane => (b, false)
  | s, _ => s

/-- Annotates each trace event with the hold state at its start: which of
the berth and the crane the ship is holding while that event runs. -/
def holdStates : Bool × Bool → List ShipEvent → List (ShipEvent × Bool × Bool)
  | _, [] => []
  | s, e :: rest => (e, s) :: holdStates (holdStep s e) rest

/-- The annotated trace of one ship, starting with nothing held. -/
def shipHoldTrace (ct : CargoType) (k : ℕ) : List (ShipEvent × Bool × Bool) :=
  holdStates (false, false) (shipTrace ct k)

/-- A storage-wait tick leaves the hold state unchanged, so the annotation
state is constant across a replicated block of ticks. -/
theorem holdStates_replicate_wait (s : Bool × Bool) (k : ℕ)
    (rest : List ShipEvent) :
    holdStates s (List.replicate k ShipEvent.storageWaitTick ++ rest)
      = List.replicate k (ShipEvent.storageWaitTick, s) ++ holdStates s rest := by
  obtain ⟨b, c⟩ := s
  induction k with
  | zero => simp
  | succ n ih =>
    rw [List.replicate_succ, List.cons_append, List.replicate_succ]
    have h1 : holdStates (b, c) (ShipEvent.storageWaitTick ::
          (List.replicate n ShipEvent.storageWaitTick ++ rest))
        = (ShipEvent.storageWaitTick, (b, c)) ::
          holdStates (b, c) (List.replicate n ShipEvent.storageWaitTick ++ rest) :=
      rfl
    rw [h1, ih]
    rfl

/-- Fully evaluated annotated trace of an oil ship. -/
theorem shipHoldTrace_oil (k : ℕ) :
    shipHoldTrace CargoType.oil k =
      (ShipEvent.acquireBerth, (false, false))
        :: (List.replicate k (ShipEvent.storageWaitTick, (true, false))
          ++ [(ShipEvent.unload, (true, false)),
              (ShipEvent.storePut, (true, false)),
              (ShipEvent.releaseBerth, (true, false))]) := by
  show (ShipEvent.acquireBerth, (false, false))
      :: holdStates (true, false)
        (List.replicate k ShipEvent.storageWaitTick
          ++ [ShipEvent.unload, ShipEvent.storePut, ShipEvent.releaseBerth]) = _
  rw [holdStates_replicate_wait]
  rfl

/-- Fully evaluated annotated trace of a dry-cargo (non-oil) ship. -/
theorem shipHoldTrace_dry (ct : CargoType) (h : ¬ ct = CargoType.oil) (k : ℕ) :
    shipHoldTrace ct k =
      (ShipEvent.acquireBerth, (false, false))
        :: (ShipEvent.acquireCrane, (true, false))
        :: (List.replicate k (ShipEvent.storageWaitTick, (true, true))
          ++ [(ShipEvent.unload, (true, true)),
              (ShipEvent.storePut, (true, true)),
              (ShipEvent.releaseCrane, (true, true)),
              (ShipEvent.releaseBerth, (true, false))]) := by
  unfold shipHoldTrace shipTrace
  rw [if_neg h]
  show (ShipEvent.acquireBerth, (false, false))
      :: (ShipEvent.acquireCrane, (true, false))
      :: holdStates (true, true)
        (List.replicate k ShipEvent.storageWaitTick
          ++ [ShipEvent.unload, ShipEvent.storePut, ShipEvent.releaseCrane,
              ShipEvent.releaseBerth]) = _
  rw [holdStates_replicate_wait]
  rfl

/-- Claim C3 counterexample: for a general-cargo ship that polls once for
storage headroom, the trace contains a storage-wait tick during which the
crane is held, and the storage put is also performed with the crane held —
the source acquires the crane before the headroom wait (lines 136-143) and
releases it only after the put (line 151), contradicting the claim that a
crane is never held while waiting for storage headroom or while placing
cargo into storage. -/
theorem C3_counterexample :
    (ShipEvent.storageWaitTick, true, true) ∈ shipHoldTrace CargoType.general 1
  ∧ (ShipEvent.storePut, true, true) ∈ shipHoldTrace CargoType.general 1 := by
  constructor <;> decide

/-- Claim C3, amended: the berth is held continuously from grant until
departure — during every event after the berth acquisition; a crane is used
only for non-oil cargo, and it is held from its grant through the
storage-headroom wait, the unloading and the storage placement, released
just before the berth: in the annotated trace the crane is held during
exactly the storage-wait, unloading, storage-put and crane-release events,
and for oil ships the crane is never held. -/
theorem C3_resource_scopes (ct : CargoType) (k : ℕ)
    (p : ShipEvent × Bool × Bool) (hp : p ∈ shipHoldTrace ct k) :
    p.2.1 = decide (p.1 ≠ ShipEvent.acquireBerth)
  ∧ p.2.2 = (decide (ct ≠ CargoType.oil) &&
      decide (p.1 = ShipEvent.storageWaitTick ∨ p.1 = ShipEvent.unload
        ∨ p.1 = ShipEvent.storePut ∨ p.1 = ShipEvent.releaseCrane)) := by
  by_cases hoil : ct = CargoType.oil
  · subst hoil
    rw [shipHoldTrace_oil] at hp
    rcases List.mem_cons.mp hp with rfl | hp
    · decide
    rcases List.mem_append.mp hp with hp2 | hp2
    · have := List.eq_of_mem_replicate hp2
      subst this
      decide
    · fin_cases hp2 <;> decide
  · have hd : decide (ct ≠ CargoType.oil) = true := by
      simp [hoil]
    rw [shipHoldTrace_dry ct hoil] at hp
    rw [hd]
    rcases List.mem_cons.mp hp with rfl | hp
    · decide
    rcases List.mem_cons.mp hp with rfl | hp
    · decide
    rcases List.mem_append.mp hp with hp2 | hp2
    · have := List.eq_of_mem_replicate hp2
      subst this
      decide
    · fin_cases hp2 <;> decide

/-- Claim C3 witness: the unloading event of a grain ship with no storage
wait runs with both the berth and the crane held, as the amended
characterization states. -/
theorem C3_resource_scopes_witness :
    ((ShipEvent.unload, (true, true)) ∈ shipHoldTrace CargoType.grain 0)
  ∧ ((true : Bool) = decide (ShipEvent.unload ≠ ShipEvent.acquireBerth)
      ∧ (true : Bool) = (decide (CargoType.grain ≠ CargoType.oil) &&
          decide (ShipEvent.unload = ShipEvent.storageWaitTick
            ∨ ShipEvent.unload = ShipEvent.unload
            ∨ ShipEvent.unload = ShipEvent.storePut
            ∨ ShipEvent.unload = ShipEvent.releaseCrane))) :=
  ⟨by decide,
    C3_resource_scopes CargoType.grain 0 (ShipEvent.unload, (true, true))
      (by decide)⟩

/-- The default configuration of the Streamlit sidebar (lines 590-649):
5 oil berths, 5 dry berths, 7 cranes, speeds 300/1000/20, storage capacities
100000/20000/540000, 7 trains of 2000 tons on 2 tracks, 714 ship calls a
year, cargo split 32/35/33. -/
def configW : Config :=
  ⟨5, 5, 7, 300, 1000, 20, 100000, 20000, 540000, 7, 2000, 2, 714,
    32 / 100, 35 / 100, 33 / 100⟩

/-- State of the three storage containers (levels in tons).  Each pool is a
simpy Container created with init 0 in Port.__init__ (lines 80-82). -/
structure StorageState where
  grain : ℚ
  general : ℚ
  oil : ℚ
deriving DecidableEq

/-- Level of the pool serving a cargo type (Port.get_storage, lines
101-107). -/
def storageLevel (s : StorageState) : CargoType → ℚ
  | CargoType.grain => s.grain
  | CargoType.oil => s.oil
  | CargoType.general => s.general

/-- Configured capacity of the pool serving a cargo type. -/
def storageCapacityOf (cfg : Config) : CargoType → ℚ
  | CargoType.grain => cfg.grain_storage_capacity
  | CargoType.oil => cfg.oil_storage_capacity
  | CargoType.general => cfg.general_storage_capacity

/-- A ship's storage placement (lines 142-163): the simpy Container.put
executes only once level + amount ≤ capacity holds; while it does not, the
ship keeps waiting and the pool is unchanged. -/
def shipDeposit (cfg : Config) (s : StorageState) (ct : CargoType)
    (amount : ℚ) : StorageState :=
  if storageLevel s ct + amount ≤ storageCapacityOf cfg ct then
    match ct with
    | CargoType.grain => { s with grain := s.grain + amount }
    | CargoType.oil => { s with oil := s.oil + amount }
    | CargoType.general => { s with general := s.general + amount }
  else s

/-- The storage-mutating events of a run: ship deposits (ship_process) and
rail dispatch firings (railway_unload_process). -/
inductive PortStorageOp
  | deposit (ct : CargoType) (amount : ℚ)
  | railDispatch
deriving DecidableEq

/-- Dispatch of one storage-mutating event. -/
def applyStorageOp (cfg : Config) (s : StorageState) :
    PortStorageOp → StorageState
  | PortStorageOp.deposit ct a => shipDeposit cfg s ct a
  | PortStorageOp.railDispatch =>
    let r := railWithdraw s.grain s.general s.oil cfg.train_capacity
    ⟨r.1, r.2.1, r.2.2⟩

/-- Reachable storage states: every sequence of deposits and rail firings
applied to the freshly constructed Port, whose containers start at level 0
(lines 80-82). -/
def runStorageOps (cfg : Config) (ops : List PortStorageOp) : StorageState :=
  ops.foldl (applyStorageOp cfg) ⟨0, 0, 0⟩

/-- Per-pool level invariant: every pool holds between 0 and its configured
capacity. -/
def storageInv (cfg : Config) (s : StorageState) : Prop :=
  (0 ≤ s.grain ∧ s.grain ≤ cfg.grain_storage_capacity)
  ∧ (0 ≤ s.general ∧ s.general ≤ cfg.general_storage_capacity)
  ∧ (0 ≤ s.oil ∧ s.oil ≤ cfg.oil_storage_capacity)

/-- Ship cargo amounts are positive in the source (generated uniformly from
positive ranges, lines 229-234); this guard captures that. -/
def storageOpOk : PortStorageOp → Bool
  | PortStorageOp.deposit _ a => decide (0 ≤ a)
  | PortStorageOp.railDispatch => true

/-- A guarded deposit preserves the per-pool invariant. -/
theorem shipDeposit_inv (cfg : Config) (s : StorageState) (ct : CargoType)
    (a : ℚ) (ha : 0 ≤ a) (h : storageInv cfg s) :
    storageInv cfg (shipDeposit cfg s ct a) := by
  obtain ⟨⟨h1, h2⟩, ⟨h3, h4⟩, h5, h6⟩ := h
  unfold shipDeposit
  by_cases hfit : storageLevel s ct + a ≤ storageCapacityOf cfg ct
  · rw [if_pos hfit]
    cases ct <;>
      simp only [storageLevel, storageCapacityOf] at hfit <;>
      refine ⟨⟨?_, ?_⟩, ⟨?_, ?_⟩, ?_, ?_⟩ <;> dsimp only <;> linarith
  · rw [if_neg hfit]
    exact ⟨⟨h1, h2⟩, ⟨h3, h4⟩, h5, h6⟩

/-- A rail dispatch firing preserves the per-pool invariant. -/
theorem railDispatch_inv (cfg : Config) (s : StorageState)
    (htc : 0 < cfg.train_capacity) (h : storageInv cfg s) :
    storageInv cfg (applyStorageOp cfg s PortStorageOp.railDispatch) := by
  obtain ⟨⟨h1, h2⟩, ⟨h3, h4⟩, h5, h6⟩ := h
  unfold applyStorageOp
  rcases le_or_lt cfg.train_capacity s.grain with hb | hb
  · rw [(show railWithdraw s.grain s.general s.oil cfg.train_capacity
        = (s.grain - cfg.train_capacity, s.general, s.oil) from by
      simp only [railWithdraw, if_pos hb])]
    refine ⟨⟨?_, ?_⟩, ⟨?_, ?_⟩, ?_, ?_⟩ <;> dsimp only <;> linarith
  rcases le_or_lt cfg.train_capacity s.general with hb2 | hb2
  · rw [(show railWithdraw s.grain s.general s.oil cfg.train_capacity
        = (s.grain, s.general - cfg.train_capacity, s.oil) from by
      simp only [railWithdraw, if_neg (not_le.mpr hb), if_pos hb2])]
    refine ⟨⟨?_, ?_⟩, ⟨?_, ?_⟩, ?_, ?_⟩ <;> dsimp only <;> linarith
  rcases le_or_lt cfg.train_capacity s.oil with hb3 | hb3
  · rw [(show railWithdraw s.grain s.general s.oil cfg.train_capacity
        = (s.grain, s.general, s.oil - cfg.train_capacity) from by
      simp only [railWithdraw, if_neg (not_le.mpr hb), if_neg (not_le.mpr hb2),
        if_pos hb3])]
    refine ⟨⟨?_, ?_⟩, ⟨?_, ?_⟩, ?_, ?_⟩ <;> dsimp only <;> linarith
  · have heq := railWithdraw_else_eq s.grain s.general s.oil cfg.train_capacity
      (not_le.mpr hb) (not_le.mpr hb2) (not_le.mpr hb3)
    have hsum : 0 ≤ s.grain + s.general + s.oil := by linarith
    have ha0 : 0 ≤ railA0 s.grain s.general s.oil cfg.train_capacity :=
      le_min htc.le hsum
    have ht1 := railTake1_eq s.grain s.general s.oil cfg.train_capacity h1
      htc.le hsum
    have ht1b : railTake1 s.grain s.general s.oil cfg.train_capacity
        ≤ railA0 s.grain s.general s.oil cfg.train_capacity := by
      rw [ht1]; exact min_le_left _ _
    have ht1g : railTake1 s.grain s.general s.oil cfg.train_capacity
        ≤ s.grain := by rw [ht1]; exact min_le_right _ _
    have ht1n : 0 ≤ railTake1 s.grain s.general s.oil cfg.train_capacity := by
      rw [ht1]; exact le_min ha0 h1
    have hrem1 : 0 ≤ railA0 s.grain s.general s.oil cfg.train_capacity
        - railTake1 s.grain s.general s.oil cfg.train_capacity := by linarith
    have ht2 := railTake2_eq s.grain s.general s.oil cfg.train_capacity h3 hrem1
    have ht2g : railTake2 s.grain s.general s.oil cfg.train_capacity
        ≤ s.general := by rw [ht2]; exact min_le_right _ _
    have ht2n : 0 ≤ railTake2 s.grain s.general s.oil cfg.train_capacity := by
      rw [ht2]; exact le_min hrem1 h3
    have ht2b : railTake2 s.grain s.general s.oil cfg.train_capacity
        ≤ railA0 s.grain s.general s.oil cfg.train_capacity
          - railTake1 s.grain s.general s.oil cfg.train_capacity := by
      rw [ht2]; exact min_le_left _ _
    have hrem2 : 0 ≤ railA0 s.grain s.general s.oil cfg.train_capacity
        - railTake1 s.grain s.general s.oil cfg.train_capacity
        - railTake2 s.grain s.general s.oil cfg.train_capacity := by linarith
    have ht3 := railTake3_eq s.grain s.general s.oil cfg.train_capacity h5 hrem2
    have ht3g : railTake3 s.grain s.general s.oil cfg.train_capacity
        ≤ s.oil := by rw [ht3]; exact min_le_right _ _
    have ht3n : 0 ≤ railTake3 s.grain s.general s.oil cfg.train_capacity := by
      rw [ht3]; exact le_min hrem2 h5
    by_cases hpos : 0 < railA0 s.grain s.general s.oil cfg.train_capacity
    · rw [if_pos hpos] at heq
      rw [heq]
      refine ⟨⟨?_, ?_⟩, ⟨?_, ?_⟩, ?_, ?_⟩ <;> dsimp only <;> linarith
    · rw [if_neg hpos] at heq
      rw [heq]
      refine ⟨⟨?_, ?_⟩, ⟨?_, ?_⟩, ?_, ?_⟩ <;> dsimp only <;> linarith

/-- The invariant holds after folding any valid operation list from an
invariant state. -/
theorem foldl_storageOps_inv (cfg : Config) (htc : 0 < cfg.train_capacity)
    (ops : List PortStorageOp) :
    ∀ s : StorageState, (∀ op ∈ ops, storageOpOk op = true) →
      storageInv cfg s → storageInv cfg (ops.foldl (applyStorageOp cfg) s) := by
  induction ops with
  | nil => intro s _ h; exact h
  | cons op rest ih =>
    intro s hok h
    refine ih (applyStorageOp cfg s op) (fun q hq => hok q (List.mem_cons_of_mem _ hq)) ?_
    cases op with
    | deposit ct a =>
      have ha : 0 ≤ a := by
        have := hok (PortStorageOp.deposit ct a) (List.mem_cons_self _ _)
        simpa [storageOpOk] using this
      exact shipDeposit_inv cfg s ct a ha h
    | railDispatch => exact railDispatch_inv cfg s htc h

/-- Claim C4: in every reachable storage state — any sequence of ship
deposits (with nonnegative amounts, as generated) and rail dispatch firings
applied to the initially empty pools — each of the three pools satisfies
0 ≤ level ≤ its configured capacity, and both a ship deposit and a rail
withdrawal preserve this invariant from any state satisfying it. -/
theorem C4_storage_invariant (cfg : Config) (ops : List PortStorageOp)
    (hcg : 0 ≤ cfg.grain_storage_capacity)
    (hcgen : 0 ≤ cfg.general_storage_capacity)
    (hco : 0 ≤ cfg.oil_storage_capacity)
    (htc : 0 < cfg.train_capacity)
    (hops : ∀ op ∈ ops, storageOpOk op = true) :
    storageInv cfg (runStorageOps cfg ops)
  ∧ (∀ (s : StorageState) (ct : CargoType) (a : ℚ), 0 ≤ a →
      storageInv cfg s → storageInv cfg (shipDeposit cfg s ct a))
  ∧ (∀ s : StorageState, storageInv cfg s →
      storageInv cfg (applyStorageOp cfg s PortStorageOp.railDispatch)) :=
  ⟨foldl_storageOps_inv cfg htc ops ⟨0, 0, 0⟩ hops
      ⟨⟨le_refl 0, hcg⟩, ⟨le_refl 0, hcgen⟩, le_refl 0, hco⟩,
    fun s ct a ha h => shipDeposit_inv cfg s ct a ha h,
    fun s h => railDispatch_inv cfg s htc h⟩

/-- Claim C4 witness: a short concrete history — a grain deposit of 5000,
a rail firing, an oil deposit of 7000 — under the example configuration
keeps every pool within bounds. -/
theorem C4_storage_invariant_witness :
    ((0 : ℚ) ≤ 100000 ∧ (0 : ℚ) ≤ 20000 ∧ (0 : ℚ) ≤ 540000 ∧ (0 : ℚ) < 2000
      ∧ ∀ op ∈ [PortStorageOp.deposit CargoType.grain 5000,
          PortStorageOp.railDispatch,
          PortStorageOp.deposit CargoType.oil 7000], storageOpOk op = true)
  ∧ storageInv configW (runStorageOps configW
      [PortStorageOp.deposit CargoType.grain 5000, PortStorageOp.railDispatch,
        PortStorageOp.deposit CargoType.oil 7000]) :=
  ⟨⟨by norm_num [configW], by norm_num [configW], by norm_num [configW],
      by norm_num [configW], by decide⟩,
    (C4_storage_invariant configW
      [PortStorageOp.deposit CargoType.grain 5000, PortStorageOp.railDispatch,
        PortStorageOp.deposit CargoType.oil 7000]
      (by norm_num [configW]) (by norm_num [configW]) (by norm_num [configW])
      (by norm_num [configW]) (by decide)).1⟩

/-- Pre-event failure behaviour of run_simulation (lines 245-257).  The
source performs no explicit configuration validation.  Before the first
event executes, the only checks that can fire are those of the libraries it
calls, in program order: Port.__init__ (lines 75-85) constructs simpy
Resource and Container objects, whose constructors raise ValueError when the
requested capacity is not positive (oil berths, dry berths, cranes, then the
three containers, then the railway); env.process (lines 251-252) only
registers the generator functions without running their bodies; and env.run
(line 255) raises ValueError unless the horizon exceeds the current time 0.
The cargo-type distribution is never inspected before the first arrival
draw, which happens inside the first simulation event. -/
def preRunError (cfg : Config) (simulation_hours : ℚ) : Option String :=
  if cfg.oil_berths ≤ 0 then some "oil_berths capacity must be positive"
  else if cfg.dry_berths ≤ 0 then some "dry_berths capacity must be positive"
  else if cfg.cranes ≤ 0 then some "cranes capacity must be positive"
  else if cfg.grain_storage_capacity ≤ 0 then
    some "grain storage capacity must be positive"
  else if cfg.general_storage_capacity ≤ 0 then
    some "general storage capacity must be positive"
  else if cfg.oil_storage_capacity ≤ 0 then
    some "oil storage capacity must be positive"
  else if cfg.railway_capacity ≤ 0 then
    some "railway capacity must be positive"
  else if simulation_hours ≤ 0 then
    some "until must be greater than the current simulation time"
  else none

/-- Sum of the configured cargo-type probabilities. -/
def distSum (cfg : Config) : ℚ := cfg.dist_grain + cfg.dist_oil + cfg.dist_general

/-- Configuration with positive resources and horizon but a cargo
distribution summing to 3/10 instead of 1. -/
def configEx5 : Config :=
  ⟨5, 5, 7, 300, 1000, 20, 100000, 20000, 540000, 7, 2000, 2, 714,
    1 / 10, 1 / 10, 1 / 10⟩

/-- Claim C5 counterexample: a configuration whose cargo-type distribution
sums to 3/10 — far outside any tolerance of 1 — raises no error before
simulation events execute: the source has no validation, and the
distribution is first touched by np.random.choice inside the first
generator event of the run, not before it. -/
theorem C5_counterexample :
    distSum configEx5 ≠ 1 ∧ preRunError configEx5 8760 = none := by
  constructor
  · norm_num [distSum, configEx5]
  · norm_num [preRunError, configEx5]

/-- Claim C5, amended: before any simulation event executes, an error is
raised exactly for a non-positive resource count or storage capacity (from
the simpy Resource and Container constructors invoked by Port.__init__) or a
non-positive horizon (from env.run); a cargo-type distribution not summing
to 1 is not rejected before the run — it only surfaces at the first arrival
draw, inside the simulation — and no tolerance check exists in the core. -/
theorem C5_validation (cfg : Config) (hours : ℚ) :
    preRunError cfg hours = none ↔
      (0 < cfg.oil_berths ∧ 0 < cfg.dry_berths ∧ 0 < cfg.cranes
        ∧ 0 < cfg.grain_storage_capacity ∧ 0 < cfg.general_storage_capacity
        ∧ 0 < cfg.oil_storage_capacity ∧ 0 < cfg.railway_capacity
        ∧ 0 < hours) := by
  unfold preRunError
  split_ifs with h1 h2 h3 h4 h5 h6 h7 h8
  · exact iff_of_false (by simp) (fun h => absurd h.1 (not_lt.mpr h1))
  · exact iff_of_false (by simp) (fun h => absurd h.2.1 (not_lt.mpr h2))
  · exact iff_of_false (by simp) (fun h => absurd h.2.2.1 (not_lt.mpr h3))
  · exact iff_of_false (by simp) (fun h => absurd h.2.2.2.1 (not_lt.mpr h4))
  · exact iff_of_false (by simp) (fun h => absurd h.2.2.2.2.1 (not_lt.mpr h5))
  · exact iff_of_false (by simp) (fun h => absurd h.2.2.2.2.2.1 (not_lt.mpr h6))
  · exact iff_of_false (by simp) (fun h => absurd h.2.2.2.2.2.2.1 (not_lt.mpr h7))
  · exact iff_of_false (by simp) (fun h => absurd h.2.2.2.2.2.2.2 (not_lt.mpr h8))
  · exact iff_of_true rfl ⟨not_le.mp h1, not_le.mp h2, not_le.mp h3,
      not_le.mp h4, not_le.mp h5, not_le.mp h6, not_le.mp h7, not_le.mp h8⟩

namespace Engine

/-!
Executable embedding of the SimPy discrete-event engine as instantiated by
run_simulation (lines 245-257), at the granularity the three processes of
the model use it: a time-ordered event queue of (time, event id, process),
counted FIFO resources, bounded containers with FIFO put queues, and the
three processes (ship_generator, ship_process, railway_unload_process) as
explicit state machines whose states are their suspension points.  SimPy
orders simultaneous events by ascending event id (its heap keys are
(time, priority, event id) and all events here share the default priority),
so the queue is kept sorted by (time, event id); ids increase monotonically,
which reproduces SimPy's deterministic FIFO tie-breaking.  A request that
can be granted immediately lets the process continue within the same
instant; a pending request parks the process in the resource's FIFO wait
queue and a release resumes the head waiter by scheduling it at the current
time.  env.run(until) stops before executing any event at a time at or past
the horizon, matching SimPy's urgent stop event.
-/

/-- A simpy Resource: capacity, units in use, FIFO queue of waiting
processes (resource.queue in the source, read at line 125). -/
structure Res where
  capacity : ℕ
  count : ℕ
  waitQ : List ℕ
deriving DecidableEq

/-- A simpy Container: capacity, current level, FIFO queue of pending puts
(process id and amount).  Get queues are not modelled: the only getter is
the rail process and it always requests at most the current level. -/
structure Cont where
  capacity : ℚ
  level : ℚ
  putQ : List (ℕ × ℚ)
deriving DecidableEq

/-- Suspension points of railway_unload_process (lines 179-212). -/
inductive RailPhase
  | start
  | acquire
  | awaitTrack
  | loaded
deriving DecidableEq

/-- Suspension points of ship_process (lines 121-163), carrying the local
variables live at each point. -/
inductive ShipPhase
  | start
  | awaitBerth (arrival : ℚ)
  | awaitCrane (arrival berthWait : ℚ)
  | storageTick (arrival berthWait : ℚ)
  | unloaded (arrival berthWait : ℚ)
  | awaitPut (arrival berthWait : ℚ)
deriving DecidableEq

/-- The three process kinds of the model. -/
inductive ProcState
  | generator (shipId : ℕ)
  | railway (phase : RailPhase)
  | ship (id : ℕ) (ct : CargoType) (amount : ℚ) (phase : ShipPhase)
deriving DecidableEq

/-- Whole simulation state. -/
structure SimState where
  now : ℚ
  nextEid : ℕ
  nextPid : ℕ
  queue : List (ℚ × ℕ × ℕ)
  procs : List (ℕ × ProcState)
  oilBerths : Res
  dryBerths : Res
  cranes : Res
  railway : Res
  grainC : Cont
  generalC : Cont
  oilC : Cont
  metrics : PortMetrics
  rng : ℕ
deriving DecidableEq

/-- Insert an event keeping the queue sorted by (time, event id). -/
def insertEvent (ev : ℚ × ℕ × ℕ) : List (ℚ × ℕ × ℕ) → List (ℚ × ℕ × ℕ)
  | [] => [ev]
  | e :: rest =>
    if ev.1 < e.1 ∨ (ev.1 = e.1 ∧ ev.2.1 < e.2.1) then ev :: e :: rest
    else e :: insertEvent ev rest

/-- Schedule the given process after the given delay, stamping a fresh
event id. -/
def schedule (s : SimState) (delay : ℚ) (pid : ℕ) : SimState :=
  { s with queue := insertEvent (s.now + delay, s.nextEid, pid) s.queue,
           nextEid := s.nextEid + 1 }

/-- Schedule several processes at the current instant, in list order. -/
def scheduleAll (s : SimState) (pids : List ℕ) : SimState :=
  pids.foldl (fun st p => schedule st 0 p) s

/-- Replace the stored state of a process. -/
def setProc (s : SimState) (pid : ℕ) (ps : ProcState) : SimState :=
  { s with procs := s.procs.map (fun q => if q.1 = pid then (pid, ps) else q) }

/-- Drop a terminated process. -/
def removeProc (s : SimState) (pid : ℕ) : SimState :=
  { s with procs := s.procs.filter (fun q => q.1 ≠ pid) }

/-- Look up a process. -/
def getProc (s : SimState) (pid : ℕ) : Option ProcState :=
  (s.procs.find? (fun q => q.1 == pid)).map (fun q => q.2)

/-- Modelled from the spec: a single seeded random source drives all
stochastic draws per run.  The source uses the numpy global generator, whose
Mersenne-Twister internals are outside the repository; it is modelled as a
linear congruential generator yielding a value in the unit interval together
with the next seed. -/
def nextUnit (seed : ℕ) : ℚ × ℕ :=
  let s := (1103515245 * seed + 12345) % 4294967296
  ((s : ℚ) / 4294967296, s)

/-- np.random.choice over [grain, oil, general] with the configured
probabilities (lines 223-226), as inverse-CDF sampling of the categorical
distribution. -/
def drawCargoType (cfg : Config) (seed : ℕ) : CargoType × ℕ :=
  let u := nextUnit seed
  (if u.1 < cfg.dist_grain then CargoType.grain
   else if u.1 < cfg.dist_grain + cfg.dist_oil then CargoType.oil
   else CargoType.general, u.2)

/-- np.random.uniform(a, b). -/
def drawUniform (a b : ℚ) (seed : ℕ) : ℚ × ℕ :=
  let u := nextUnit seed
  (a + u.1 * (b - a), u.2)

/-- Cargo tonnage by type (lines 229-234). -/
def drawCargoAmount (ct : CargoType) (seed : ℕ) : ℚ × ℕ :=
  match ct with
  | CargoType.grain => drawUniform 3000 8000 seed
  | CargoType.oil => drawUniform 5000 15000 seed
  | CargoType.general => drawUniform 1000 5000 seed

/-- Modelled from the spec: np.random.exponential(mean) (line 241) draws an
exponentially distributed delay; its inverse CDF needs a logarithm, which
has no exact rational value, so a monotone nonnegative rational surrogate
u / (1 - u) stands in for -ln(1 - u).  The determinism claim does not depend
on the distribution's shape. -/
def drawExponential (mean : ℚ) (seed : ℕ) : ℚ × ℕ :=
  let u := nextUnit seed
  (if u.1 < 1 then mean * (u.1 / (1 - u.1)) else mean, u.2)

/-- Port.get_berth (lines 94-98). -/
def getBerth (s : SimState) (ct : CargoType) : Res :=
  if ct = CargoType.oil then s.oilBerths else s.dryBerths

/-- Write back the berth pool selected by get_berth. -/
def setBerth (s : SimState) (ct : CargoType) (r : Res) : SimState :=
  if ct = CargoType.oil then { s with oilBerths := r } else { s with dryBerths := r }

/-- Port.get_storage (lines 101-107). -/
def getCont (s : SimState) (ct : CargoType) : Cont :=
  match ct with
  | CargoType.grain => s.grainC
  | CargoType.oil => s.oilC
  | CargoType.general => s.generalC

/-- Write back the container selected by get_storage. -/
def setCont (s : SimState) (ct : CargoType) (c : Cont) : SimState :=
  match ct with
  | CargoType.grain => { s with grainC := c }
  | CargoType.oil => { s with oilC := c }
  | CargoType.general => { s with generalC := c }

/-- Port.get_unloading_speed (lines 110-116). -/
def unloadingSpeed (cfg : Config) (ct : CargoType) : ℚ :=
  match ct with
  | CargoType.grain => cfg.grain_speed
  | CargoType.oil => cfg.oil_speed
  | CargoType.general => cfg.general_speed

/-- Request one unit of a resource for the process: granted immediately when
a unit is free, otherwise the process joins the FIFO wait queue. -/
def requestRes (r : Res) (pid : ℕ) : Res × Bool :=
  if r.count < r.capacity then ({ r with count := r.count + 1 }, true)
  else ({ r with waitQ := r.waitQ ++ [pid] }, false)

/-- Release one unit: when a process waits, the unit transfers to the head
of the FIFO queue, which must then be rescheduled at the current instant. -/
def releaseAndGrant (r : Res) : Res × Option ℕ :=
  match r.waitQ with
  | [] => ({ r with count := r.count - 1 }, none)
  | w :: rest => ({ r with waitQ := rest }, some w)

/-- After a get lowers the level, simpy retries the pending puts in FIFO
order, executing each that now fits and stopping at the first that does
not.  Returns the new level, the remaining put queue and the processes to
resume. -/
def triggerPutsAux (capacity : ℚ) :
    List (ℕ × ℚ) → ℚ → ℚ × List (ℕ × ℚ) × List ℕ
  | [], level => (level, [], [])
  | (pid, amt) :: rest, level =>
    if level + amt ≤ capacity then
      let r := triggerPutsAux capacity rest (level + amt)
      (r.1, r.2.1, pid :: r.2.2)
    else (level, (pid, amt) :: rest, [])

/-- Container.get of an amount known to be at most the level, followed by
the put-queue retry. -/
def contDoGet (c : Cont) (amt : ℚ) : Cont × List ℕ :=
  let r := triggerPutsAux c.capacity c.putQ (c.level - amt)
  ({ c with level := r.1, putQ := r.2.1 }, r.2.2)

/-- Tail of ship_process after the with-blocks (lines 165-174): release the
crane (non-oil) and the berth — each release resuming the head waiter —
record the completed ship and, when the ship id is divisible by ten, a
resource snapshot taken after the releases. -/
def shipFinish (cfg : Config) (pid id : ℕ) (ct : CargoType)
    (amount arrival berthWait : ℚ) (s : SimState) : SimState :=
  let s :=
    if ct ≠ CargoType.oil then
      let rw := releaseAndGrant s.cranes
      let s := { s with cranes := rw.1 }
      match rw.2 with
      | some wp => schedule s 0 wp
      | none => s
    else s
  let rb := releaseAndGrant (getBerth s ct)
  let s := setBerth s ct rb.1
  let s :=
    match rb.2 with
    | some wp => schedule s 0 wp
    | none => s
  let processing := s.now - arrival
  let s := { s with metrics := s.metrics.record_ship_processing berthWait processing amount }
  let s :=
    if id % 10 = 0 then
      { s with metrics := (s.metrics.record_resource_usage s.now
          (s.oilBerths.count + s.dryBerths.count) s.cranes.count
          (s.grainC.level + s.generalC.level + s.oilC.level)
          (cfg.grain_storage_capacity + cfg.general_storage_capacity
            + cfg.oil_storage_capacity)) }
    else s
  removeProc s pid

/-- Storage-headroom check of ship_process (lines 142-148 and 156-161):
poll again in one hour while the cargo does not fit, otherwise unload for
cargo_amount / unloading_speed hours. -/
def shipStorageCheck (cfg : Config) (pid id : ℕ) (ct : CargoType)
    (amount arrival berthWait : ℚ) (s : SimState) : SimState :=
  let c := getCont s ct
  if c.capacity < c.level + amount then
    schedule (setProc s pid (ProcState.ship id ct amount
      (ShipPhase.storageTick arrival berthWait))) 1 pid
  else
    schedule (setProc s pid (ProcState.ship id ct amount
      (ShipPhase.unloaded arrival berthWait)))
      (amount / unloadingSpeed cfg ct) pid

/-- The storage put of ship_process (lines 151 and 163): immediate when the
cargo fits, otherwise the put pends in the container's FIFO put queue. -/
def shipPut (cfg : Config) (pid id : ℕ) (ct : CargoType)
    (amount arrival berthWait : ℚ) (s : SimState) : SimState :=
  let c := getCont s ct
  if c.level + amount ≤ c.capacity then
    let s := setCont s ct { c with level := c.level + amount }
    shipFinish cfg pid id ct amount arrival berthWait s
  else
    setProc (setCont s ct { c with putQ := c.putQ ++ [(pid, amount)] }) pid
      (ProcState.ship id ct amount (ShipPhase.awaitPut arrival berthWait))

/-- Continuation of ship_process once the berth is granted (lines 131-141):
dry cargo requests a crane, oil goes straight to the storage check. -/
def shipAfterBerth (cfg : Config) (pid id : ℕ) (ct : CargoType)
    (amount arrival berthWait : ℚ) (s : SimState) : SimState :=
  if ct ≠ CargoType.oil then
    let rq := requestRes s.cranes pid
    let s := { s with cranes := rq.1 }
    if rq.2 then shipStorageCheck cfg pid id ct amount arrival berthWait s
    else setProc s pid (ProcState.ship id ct amount
      (ShipPhase.awaitCrane arrival berthWait))
  else shipStorageCheck cfg pid id ct amount arrival berthWait s

/-- Head of ship_process (lines 122-130): note the arrival, record the
pending berth queue length before requesting, then request the berth. -/
def shipStart (cfg : Config) (pid id : ℕ) (ct : CargoType) (amount : ℚ)
    (s : SimState) : SimState :=
  let arrival := s.now
  let s := { s with metrics := (s.metrics.record_ship_arrival s.now
      (getBerth s ct).waitQ.length) }
  let rq := requestRes (getBerth s ct) pid
  let s := setBerth s ct rq.1
  if rq.2 then shipAfterBerth cfg pid id ct amount arrival 0 s
  else setProc s pid (ProcState.ship id ct amount (ShipPhase.awaitBerth arrival))

/-- The withdrawal block of railway_unload_process (lines 187-210) on the
engine state; every get also retries the pending puts of that container. -/
def railWithdrawStep (cfg : Config) (s : SimState) : SimState :=
  let unload := cfg.train_capacity
  if unload ≤ s.grainC.level then
    let r := contDoGet s.grainC unload
    scheduleAll { s with grainC := r.1 } r.2
  else if unload ≤ s.generalC.level then
    let r := contDoGet s.generalC unload
    scheduleAll { s with generalC := r.1 } r.2
  else if unload ≤ s.oilC.level then
    let r := contDoGet s.oilC unload
    scheduleAll { s with oilC := r.1 } r.2
  else
    let amount0 := min unload (s.grainC.level + s.generalC.level + s.oilC.level)
    if 0 < amount0 then
      let s1 :=
        if 0 < s.grainC.level then
          let take := min amount0 s.grainC.level
          let r := contDoGet s.grainC take
          (scheduleAll { s with grainC := r.1 } r.2, amount0 - take)
        else (s, amount0)
      let s2 :=
        if 0 < s1.2 then
          if 0 < s1.1.generalC.level then
            let take := min s1.2 s1.1.generalC.level
            let r := contDoGet s1.1.generalC take
            (scheduleAll { s1.1 with generalC := r.1 } r.2, s1.2 - take)
          else s1
        else s1
      if 0 < s2.2 then
        if 0 < s2.1.oilC.level then
          let take := min s2.2 s2.1.oilC.level
          let r := contDoGet s2.1.oilC take
          scheduleAll { s2.1 with oilC := r.1 } r.2
        else s2.1
      else s2.1
    else s

/-- One resumption of railway_unload_process (lines 179-212). -/
def railStep (cfg : Config) (pid : ℕ) (ph : RailPhase) (s : SimState) :
    SimState :=
  match ph with
  | RailPhase.start =>
    schedule (setProc s pid (ProcState.railway RailPhase.acquire))
      (24 / cfg.trains_per_day) pid
  | RailPhase.acquire =>
    let rq := requestRes s.railway pid
    let s := { s with railway := rq.1 }
    if rq.2 then
      let s := railWithdrawStep cfg s
      schedule (setProc s pid (ProcState.railway RailPhase.loaded)) 2 pid
    else setProc s pid (ProcState.railway RailPhase.awaitTrack)
  | RailPhase.awaitTrack =>
    let s := railWithdrawStep cfg s
    schedule (setProc s pid (ProcState.railway RailPhase.loaded)) 2 pid
  | RailPhase.loaded =>
    let rw := releaseAndGrant s.railway
    let s := { s with railway := rw.1 }
    let s :=
      match rw.2 with
      | some wp => schedule s 0 wp
      | none => s
    schedule (setProc s pid (ProcState.railway RailPhase.acquire))
      (24 / cfg.trains_per_day) pid

/-- One resumption of ship_generator (lines 217-241): draw the cargo type
and tonnage, spawn the ship process at the current instant, then sleep an
exponential inter-arrival delay with mean 8760 / ships_per_year. -/
def generatorStep (cfg : Config) (pid shipId : ℕ) (s : SimState) : SimState :=
  let d1 := drawCargoType cfg s.rng
  let d2 := drawCargoAmount d1.1 d1.2
  let s := { s with rng := d2.2 }
  let newPid := s.nextPid
  let s := { s with nextPid := s.nextPid + 1,
                    procs := s.procs ++ [(newPid,
                      ProcState.ship shipId d1.1 d2.1 ShipPhase.start)] }
  let s := schedule s 0 newPid
  let d3 := drawExponential (8760 / cfg.ships_per_year) s.rng
  let s := { s with rng := d3.2 }
  schedule (setProc s pid (ProcState.generator (shipId + 1))) d3.1 pid

/-- One resumption of ship_process at any of its suspension points. -/
def shipStep (cfg : Config) (pid id : ℕ) (ct : CargoType) (amount : ℚ)
    (ph : ShipPhase) (s : SimState) : SimState :=
  match ph with
  | ShipPhase.start => shipStart cfg pid id ct amount s
  | ShipPhase.awaitBerth arrival =>
    shipAfterBerth cfg pid id ct amount arrival (s.now - arrival) s
  | ShipPhase.awaitCrane arrival bw => shipStorageCheck cfg pid id ct amount arrival bw s
  | ShipPhase.storageTick arrival bw => shipStorageCheck cfg pid id ct amount arrival bw s
  | ShipPhase.unloaded arrival bw => shipPut cfg pid id ct amount arrival bw s
  | ShipPhase.awaitPut arrival bw => shipFinish cfg pid id ct amount arrival bw s

/-- One engine step: pop the earliest event (the queue is sorted by time and
event id); stop when the queue is empty or the event lies at or beyond the
horizon, as env.run(until) does. -/
def stepSim (cfg : Config) (hours : ℚ) (s : SimState) : Option SimState :=
  match s.queue with
  | [] => none
  | (t, _, pid) :: rest =>
    if hours ≤ t then none
    else
      let s := { s with now := t, queue := rest }
      match getProc s pid with
      | none => some s
      | some (ProcState.generator shipId) => some (generatorStep cfg pid shipId s)
      | some (ProcState.railway ph) => some (railStep cfg pid ph s)
      | some (ProcState.ship id ct amount ph) =>
        some (shipStep cfg pid id ct amount ph s)

/-- Fuel-bounded event loop; the fuel bounds the number of processed events
and is the standard totalization of the loop inside env.run. -/
def runLoop (cfg : Config) (hours : ℚ) : ℕ → SimState → SimState
  | 0, s => s
  | fuel + 1, s =>
    match stepSim cfg hours s with
    | none => s
    | some s2 => runLoop cfg hours fuel s2

/-- Initial state built by run_simulation (lines 245-252): fresh metrics,
the Port resources and containers of Port.__init__ (lines 75-91) — resource
capacities are positive for any configuration that reaches this point — and
the generator and railway processes registered in that order, both
initialized at time 0. -/
def initState (cfg : Config) (seed : ℕ) : SimState :=
  { now := 0
    nextEid := 2
    nextPid := 2
    queue := [(0, 0, 0), (0, 1, 1)]
    procs := [(0, ProcState.generator 0), (1, ProcState.railway RailPhase.start)]
    oilBerths := ⟨cfg.oil_berths.toNat, 0, []⟩
    dryBerths := ⟨cfg.dry_berths.toNat, 0, []⟩
    cranes := ⟨cfg.cranes.toNat, 0, []⟩
    railway := ⟨cfg.railway_capacity.toNat, 0, []⟩
    grainC := ⟨cfg.grain_storage_capacity, 0, []⟩
    generalC := ⟨cfg.general_storage_capacity, 0, []⟩
    oilC := ⟨cfg.oil_storage_capacity, 0, []⟩
    metrics := PortMetrics.init
    rng := seed }

/-- run_simulation (lines 245-257): run the event loop to the horizon and
return the metrics together with the port end-state. -/
def run_simulation (cfg : Config) (simulation_hours : ℚ) (seed fuel : ℕ) :
    PortMetrics × SimState :=
  let final := runLoop cfg simulation_hours fuel (initState cfg seed)
  (final.metrics, final)

/-- The full pipeline of claim C1: run_simulation followed by
calculate_capacity_metrics on the resulting metrics. -/
def runAndAnalyze (cfg : Config) (simulation_hours : ℚ) (seed fuel : ℕ) :
    PortMetrics × CapacityReport :=
  ((run_simulation cfg simulation_hours seed fuel).1,
    calculate_capacity_metrics (run_simulation cfg simulation_hours seed fuel).1
      cfg simulation_hours)

end Engine

/-- Claim C1: determinism — two runs of the simulation followed by the
capacity analysis, with identical Configuration, identical horizon,
identical random seed (and the same event-count bound), produce identical
MetricsLog contents and an identical CapacityReport.  The engine embedding
is a pure function of these inputs: the event queue is ordered by
(time, event id) with fresh ids assigned deterministically, resources grant
in FIFO order, and a single seeded stream drives every stochastic draw, so
no other source of variation exists. -/
theorem C1_determinism (cfg1 cfg2 : Config) (hours1 hours2 : ℚ)
    (seed1 seed2 fuel1 fuel2 : ℕ)
    (hc : cfg1 = cfg2) (hh : hours1 = hours2) (hs : seed1 = seed2)
    (hf : fuel1 = fuel2) :
    Engine.runAndAnalyze cfg1 hours1 seed1 fuel1
      = Engine.runAndAnalyze cfg2 hours2 seed2 fuel2 := by
  subst hc
  subst hh
  subst hs
  subst hf
  rfl

/-- Claim C1 witness: the default configuration, a year horizon, seed 42 and
a bound of 50 events reproduce themselves. -/
theorem C1_determinism_witness :
    (configW = configW ∧ (8760 : ℚ) = 8760 ∧ (42 : ℕ) = 42 ∧ (50 : ℕ) = 50)
  ∧ Engine.runAndAnalyze configW 8760 42 50
      = Engine.runAndAnalyze configW 8760 42 50 :=
  ⟨⟨rfl, rfl, rfl, rfl⟩,
    C1_determinism configW configW 8760 8760 42 42 50 50 rfl rfl rfl rfl⟩

end PortSim
